import Mathlib

/-!
Verification development for the arcade_app_alerter repository.

The repository runs five "checker" scripts (mamecheck.py, launchboxcheck.py,
retroarchcheck.py, ledblinkycheck.py, scummvmcheck.py) whose main functions are
textually isomorphic: record the run in a shared lastcheck file, fetch a page,
parse a version out of it, compare with a locally cached version, and on a
difference write the new version and optionally send a Pushover notification.
A supervising loop (entrypoint.run_checker_loop) re-runs each checker forever,
and a Flask dashboard (webserver.py) renders the cached files and a log tail.

The embedding below is shallow: file contents are optional strings (none for a
missing or unreadable file), the network fetch outcome and the HTML parse are
inputs, and each run produces a new file state together with an ordered event
trace (log lines, notification posts, file writes, the single fetch attempt).
-/

/-! ## Python string primitives -/

/-- Whitespace characters recognized by Python's str.strip and str.split. -/
def isPySpace (c : Char) : Bool :=
  c = ' ' || c = '\t' || c = '\n' || c = '\r' || c = '\x0b' || c = '\x0c'

/-- Word characters for the regex metacharacter backslash-b (ASCII \w). -/
def isWordChar (c : Char) : Bool :=
  c.isAlpha || c.isDigit || c = '_'

/-- Python str.strip(): remove leading and trailing whitespace. -/
def pyStrip (s : String) : String :=
  String.mk (((s.data.dropWhile isPySpace).reverse.dropWhile isPySpace).reverse)

/-- The first line of a file's contents, as read by f.readline() with the
trailing newline removed: characters up to the first newline. -/
def firstLine (s : String) : String :=
  String.mk (s.data.takeWhile (fun c => c ≠ '\n'))

/-- Helper for splitlines: acc holds the current line reversed. -/
def splitlinesAux : List Char → List Char → List String
  | acc, [] => if acc.isEmpty then [] else [String.mk acc.reverse]
  | acc, c :: cs =>
      if c = '\n' then String.mk acc.reverse :: splitlinesAux [] cs
      else splitlinesAux (c :: acc) cs

/-- Python str.splitlines() restricted to the newline terminator: a trailing
newline does not produce a final empty line, and the empty string gives []. -/
def splitlines (s : String) : List String :=
  splitlinesAux [] s.data

/-- Python "newline".join(lines). -/
def joinLines : List String → String
  | [] => ""
  | [x] => x
  | x :: y :: xs => x ++ "\n" ++ joinLines (y :: xs)

/-- Python list slicing l[s:] for an arbitrary integer start index: a negative
start counts from the end and clamps at 0, a nonnegative start drops that many
elements (dropping past the end yields []). -/
def pySliceFrom (s : Int) (l : List String) : List String :=
  if s < 0 then l.drop ((l.length : Int) + s).toNat
  else l.drop s.toNat

/-- Python str.split() with no argument: split on whitespace runs, dropping
empty pieces. -/
def pySplitWs (cs : List Char) : List (List Char) :=
  (cs.foldr
    (fun c acc =>
      if isPySpace c then [] :: acc
      else
        match acc with
        | [] => [[c]]
        | w :: ws => (c :: w) :: ws)
    []).filter (fun w => !w.isEmpty)

/-- Join character-list words with single spaces. -/
def joinSpaces : List (List Char) → List Char
  | [] => []
  | [w] => w
  | w :: v :: ws => w ++ ' ' :: joinSpaces (v :: ws)

/-- The normalization applied to each h4 heading in launchboxcheck:
space.join(text.split()). -/
def normWs (s : String) : String :=
  String.mk (joinSpaces (pySplitWs s.data))

/-- Whether the first list is an initial segment of the second. -/
def beginsWith : List Char → List Char → Bool
  | [], _ => true
  | _ :: _, [] => false
  | p :: ps, c :: cs => p = c && beginsWith ps cs

/-- Python substring containment: needle in hay. -/
def containsSub : List Char → List Char → Bool
  | hay, needle =>
    match hay with
    | [] => needle.isEmpty
    | _ :: rest => beginsWith needle hay || containsSub rest needle

/-! ## The generic checker (mamecheck.py and its four siblings)

All five checker modules define the same main with only labels, URLs and the
page-parsing function differing.  The embedding is generic over the label, the
notification configuration flags and the parse function; for mamecheck.py the
parse function stands for the to-version component of parse_mame_versions. -/

/-- The per-checker configuration derived from config.ini: the app label and
the notification switches (NOTIFY_ON_UPDATE, NOTIFY_ON_ERROR,
PUSHOVER_ENABLED). -/
structure CheckerConfig where
  label : String
  notify_on_update : Bool
  notify_on_error : Bool
  pushover_enabled : Bool
deriving DecidableEq

/-- The two data files a checker touches: the version cache file and the
shared lastcheck file.  none models a missing or unreadable file. -/
structure FileState where
  version_file : Option String
  lastcheck_file : Option String
deriving DecidableEq

/-- Observable events of one checker run, in program order. -/
inductive Event where
  | writeLastcheck : Event
  | fetchAttempt : Event
  | logline (ok : Bool) (msg : String) : Event
  | notify (title message : String) : Event
  | writeVersion : Event
deriving DecidableEq

/-- send_pushover: posts a notification only when Pushover is enabled;
otherwise it returns without doing anything. -/
def send_pushover (cfg : CheckerConfig) (title message : String) : List Event :=
  if cfg.pushover_enabled then [Event.notify title message] else []

/-- read_local_version: the first line of the version file, stripped; none
when the file is missing or unreadable (logged) or the first line is empty. -/
def read_local_version (label : String) (file : Option String) :
    Option String × List Event :=
  match file with
  | none => (none, [Event.logline false (label ++ ": local version file not found")])
  | some contents =>
      let first := pyStrip (firstLine contents)
      (if first = "" then none else some first, [])

/-- write_local_version: overwrite the version file with the version on line 0
and the date on line 1. -/
def write_local_version (fs : FileState) (version date_str : String) :
    FileState × List Event :=
  ({ fs with version_file := some (version ++ "\n" ++ date_str ++ "\n") },
   [Event.writeVersion])

/-- update_lastcheck: overwrite the shared lastcheck file with the timestamp on
line 0 and the app label on line 1. -/
def update_lastcheck (fs : FileState) (timestamp_str label : String) :
    FileState × List Event :=
  ({ fs with lastcheck_file := some (timestamp_str ++ "\n" ++ label ++ "\n") },
   [Event.writeLastcheck])

/-- fetch_mame_page (and its siblings): the fetch raises on a network error and
on any non-200 HTTP status, and returns the body otherwise.  The outcome of
requests.get is the input: an error message, or a status code with a body. -/
def fetch_mame_page (resp : Except String (Int × String)) : Except String String :=
  match resp with
  | .error e => .error ("HTTP request failed: " ++ e)
  | .ok (status, body) =>
      if status ≠ 200 then .error ("Unexpected HTTP status " ++ toString status)
      else .ok body

/-- The result of one checker run: the final file state, the event trace in
program order, and the return code of main. -/
structure RunResult where
  fs : FileState
  events : List Event
  rc : Int
deriving DecidableEq

/-- The shared main of the five checkers (mamecheck.py lines 318-377 and the
isomorphic mains of the other four modules): record the run in the lastcheck
file, fetch the page, parse the new version, compare with the cached version,
and on a difference write the version file and optionally notify.  File writes
are modeled as succeeding; now_date and now_ts are the strftime images of the
run's wall-clock time. -/
def checker_main (cfg : CheckerConfig) (now_date now_ts : String)
    (resp : Except String (Int × String))
    (parse : String → Except String String)
    (fs0 : FileState) : RunResult :=
  let fs1 := (update_lastcheck fs0 now_ts cfg.label).1
  let ev1 := (update_lastcheck fs0 now_ts cfg.label).2 ++ [Event.fetchAttempt]
  match fetch_mame_page resp with
  | .error e =>
      let msg := cfg.label ++ " ERROR: failed to fetch page: " ++ e
      let evN := if cfg.notify_on_error
        then send_pushover cfg (cfg.label ++ " Check Error") msg else []
      ⟨fs1, ev1 ++ [Event.logline false msg] ++ evN, 1⟩
  | .ok html =>
    match parse html with
    | .error e =>
        let msg := cfg.label ++ " ERROR: failed to parse version: " ++ e
        let evN := if cfg.notify_on_error
          then send_pushover cfg (cfg.label ++ " Check Error") msg else []
        ⟨fs1, ev1 ++ [Event.logline false msg] ++ evN, 1⟩
    | .ok new_version =>
        let local_ver := (read_local_version cfg.label fs1.version_file).1
        let evR := (read_local_version cfg.label fs1.version_file).2
        let evL := match local_ver with
          | none => [Event.logline false
              (cfg.label ++ ": no local version found; treating " ++ new_version ++ " as new.")]
          | some lv => [Event.logline true
              (cfg.label ++ ": local version " ++ lv ++ ", page reports " ++ new_version)]
        if local_ver = some new_version then
          ⟨fs1, ev1 ++ evR ++ evL ++
            [Event.logline true (cfg.label ++ ": version is current.")], 0⟩
        else
          let fs2 := (write_local_version fs1 new_version now_date).1
          let evW := (write_local_version fs1 new_version now_date).2
          let evU := if cfg.notify_on_update
            then send_pushover cfg ("New " ++ cfg.label ++ " Version")
              ("New " ++ cfg.label ++ " version " ++ new_version ++ " is available.")
            else []
          ⟨fs2, ev1 ++ evR ++ evL ++
            [Event.logline true (cfg.label ++ ": new version detected.")] ++ evW ++ evU, 0⟩

/-- Recognizer for notification events. -/
def isNotifyEv : Event → Bool
  | Event.notify _ _ => true
  | _ => false

/-- Recognizer for version-file writes. -/
def isWriteVersionEv : Event → Bool
  | Event.writeVersion => true
  | _ => false

/-- Recognizer for lastcheck-file writes. -/
def isWriteLastcheckEv : Event → Bool
  | Event.writeLastcheck => true
  | _ => false

/-- Recognizer for fetch attempts. -/
def isFetchEv : Event → Bool
  | Event.fetchAttempt => true
  | _ => false

/-- Recognizer for error log lines. -/
def isErrorLogEv : Event → Bool
  | Event.logline false _ => true
  | _ => false

/-- Number of notifications posted in a trace. -/
def notifyCount (evs : List Event) : Nat := evs.countP isNotifyEv

/-! ## The supervising loop (entrypoint.run_checker_loop)

The loop runs the checker, catches any exception from it, then sleeps and
repeats until the stop event is set.  The stop event and the sleep are
abstracted by the number iters of iterations performed before the loop
observes the stop event set; each run's outcome (a return code, or a raised
exception) is an input stream. -/

/-- What one loop iteration records: the checker run completed with a return
code, or raised an exception that was caught and printed. -/
inductive LoopEvent where
  | completed (i : Nat) (rc : Int) : LoopEvent
  | caught (i : Nat) (err : String) : LoopEvent
deriving DecidableEq

/-- The try/except body of run_checker_loop: a raised exception is caught and
turned into a printed message, never propagated. -/
def loop_body (i : Nat) (run : Except String Int) : LoopEvent :=
  match run with
  | .ok rc => LoopEvent.completed i rc
  | .error e => LoopEvent.caught i e

/-- entrypoint.run_checker_loop: with a nonpositive interval the loop is
disabled and returns immediately; otherwise it performs one iteration per
scheduling slot until the stop event is observed (after iters iterations). -/
def run_checker_loop (interval : Int) (runs : Nat → Except String Int)
    (iters : Nat) : List LoopEvent :=
  if interval ≤ 0 then []
  else (List.range iters).map (fun i => loop_body i (runs i))

/-! ## The dashboard helpers (webserver.py) -/

/-- webserver.load_log_text: the last log_lines lines of the log file joined
by newlines; the empty string when the file is missing or unreadable (none)
or splits into no lines.  The tail is the Python slice lines[-log_lines:]. -/
def load_log_text (log_lines : Int) (logfile : Option String) : String :=
  match logfile with
  | none => ""
  | some contents =>
      let lines := splitlines contents
      if lines.isEmpty then ""
      else joinLines (pySliceFrom (-log_lines) lines)

/-- The default of the log_lines configuration key in webserver.py. -/
def LOG_LINES_DEFAULT : Int := 40

/-- The timestamp format used by elapsed_time when withsecs is true. -/
def SECS_FMT : String := "%m-%d-%Y %H:%M:%S"

/-- The timestamp format used by elapsed_time when withsecs is false. -/
def DATE_FMT : String := "%m-%d-%Y"

/-- The calendar date of a naive datetime, modeled as seconds on one timeline:
the day number, by floor division. -/
def dateOf (t : Int) : Int := Int.fdiv t 86400

/-- The interval table of webserver.elapsed_time. -/
def intervalsL : List (String × Int) :=
  [("Years", 31536000), ("Months", 2592000), ("Weeks", 604800),
   ("Days", 86400), ("Hours", 3600), ("Minutes", 60), ("Seconds", 1)]

/-- Python name.rstrip of the letter s: remove all trailing s characters. -/
def rstripS (s : String) : String :=
  String.mk ((s.data.reverse.dropWhile (fun c => c = 's')).reverse)

/-- The accumulation loop of elapsed_time: divide out each interval (Python
floor division), keep nonzero parts, singularize a count of one, and stop at
two parts.  The accumulator holds the parts collected so far, reversed. -/
def buildParts : Int → List (String × Int) → List String → List String
  | _, [], parts => parts.reverse
  | secs, (name, count) :: rest, parts =>
      let value := Int.fdiv secs count
      if value ≠ 0 then
        let name2 := if value = 1 then rstripS name else name
        let parts2 := (toString value ++ " " ++ name2) :: parts
        if parts2.length = 2 then parts2.reverse
        else buildParts (secs - value * count) rest parts2
      else buildParts secs rest parts

/-- Python ", ".join(parts). -/
def joinComma : List String → String
  | [] => ""
  | [x] => x
  | x :: y :: xs => x ++ ", " ++ joinComma (y :: xs)

/-- webserver.elapsed_time.  The datetime library is abstracted: strptime maps
an input string and a format to the parsed time in seconds (none models the
ValueError on a parse failure), and now is the current time in seconds;
int(total_seconds()) is exact on this integer timeline. -/
def elapsed_time (strptime : String → String → Option Int) (now : Int)
    (start_time_str : String) (withsecs : Bool) (append : Option String) : String :=
  let fmt := if withsecs then SECS_FMT else DATE_FMT
  match strptime start_time_str fmt with
  | none => start_time_str
  | some start =>
      if !withsecs && dateOf start = dateOf now then
        match append with
        | some a => "Today " ++ a
        | none => "Today"
      else if !withsecs && dateOf start = dateOf now - 1 then
        match append with
        | some a => "Yesterday " ++ a
        | none => "Yesterday"
      else
        let seconds := now - start
        let parts := buildParts seconds intervalsL []
        let parts2 := if parts.isEmpty then ["0 Seconds"] else parts
        let s := joinComma parts2
        match append with
        | some a => s ++ " " ++ a
        | none => s

/-! ## launchboxcheck.parse_launchbox_versions

The BeautifulSoup step is abstracted: the input is the list of h4 heading
texts of the changelog page.  The regex search for the pattern
word-boundary Version whitespace digits-and-dots word-boundary (IGNORECASE)
is embedded with Python's leftmost-match and greedy-with-backtracking
semantics. -/

/-- Case-insensitive literal match of a lowercase pattern against the front of
the text; returns the rest of the text on success. -/
def matchLit : List Char → List Char → Option (List Char)
  | [], cs => some cs
  | _ :: _, [] => none
  | l :: ls, c :: cs => if c.toLower = l then matchLit ls cs else none

/-- Whether a word boundary holds between a last matched character and the
following character (none at the end of the text). -/
def boundaryAfterOk (last : Char) (next : Option Char) : Bool :=
  match next with
  | none => isWordChar last
  | some c => isWordChar last != isWordChar c

/-- Greedy backtracking for the trailing word boundary: given the candidate
group reversed and the character following it, drop characters from the end
until the boundary holds; none when the group empties. -/
def shrinkGroup : List Char → Option Char → Option (List Char)
  | [], _ => none
  | c :: rest, next =>
      if boundaryAfterOk c next then some (c :: rest)
      else shrinkGroup rest (some c)

/-- One attempt of the pattern at a fixed start position: prev is the
character before the position (none at the start of the text).  Returns the
captured group on success. -/
def tryMatchAt (prev : Option Char) (cs : List Char) : Option (List Char) :=
  let prevWord := match prev with
    | some c => isWordChar c
    | none => false
  if prevWord then none
  else
    match matchLit "version".data cs with
    | none => none
    | some rest =>
        let ws := rest.takeWhile isPySpace
        if ws.isEmpty then none
        else
          let rest2 := rest.drop ws.length
          let grp := rest2.takeWhile (fun c => c.isDigit || c = '.')
          if grp.isEmpty then none
          else
            let follow := rest2.drop grp.length
            (shrinkGroup grp.reverse follow.head?).map List.reverse

/-- re.search of the version pattern: try each start position left to right
and return the group of the leftmost successful match. -/
def searchVersion : Option Char → List Char → Option (List Char)
  | prev, cs =>
      match tryMatchAt prev cs with
      | some g => some g
      | none =>
          match cs with
          | [] => none
          | c :: rest => searchVersion (some c) rest

/-- The version string extracted from one h4 heading, after whitespace
normalization; none when the heading does not match the pattern. -/
def matchVer (t : String) : Option String :=
  (searchVersion none (normWs t).data).map (fun g => String.mk g)

/-- Whether a heading is marked beta: it contains beta (case-insensitively) or
a question mark, after whitespace normalization. -/
def markedBeta (t : String) : Bool :=
  containsSub ((normWs t).data.map Char.toLower) "beta".data
    || (normWs t).data.contains '?'

/-- The candidate list built by parse_launchbox_versions: for each heading
with a version match, the extracted version paired with its beta mark, in
page order. -/
def lbCandidates (h4s : List String) : List (String × Bool) :=
  h4s.filterMap (fun t => (matchVer t).map (fun v => (v, markedBeta t)))

/-- launchboxcheck.parse_launchbox_versions on the list of h4 heading texts:
error when no heading matches; otherwise the first non-beta candidate paired
with false, or the first candidate when all are beta. -/
def parse_launchbox_versions (h4s : List String) : Except String (String × Bool) :=
  match lbCandidates h4s with
  | [] => .error "Could not find any Version X.Y headings on LaunchBox changelog page."
  | first :: rest =>
      match (first :: rest).find? (fun c => !c.2) with
      | some c => .ok (c.1, false)
      | none => .ok first


/-! ## Shared helper lemmas -/

/-- Splitting off one newline-free line at the front of splitlinesAux. -/
theorem splitlinesAux_line (l : List Char) (h : '\n' ∉ l) :
    ∀ (acc rest : List Char),
      splitlinesAux acc (l ++ '\n' :: rest) =
        String.mk (acc.reverse ++ l) :: splitlinesAux [] rest := by
  induction l with
  | nil =>
      intro acc rest
      simp [splitlinesAux]
  | cons c l ih =>
      intro acc rest
      have hc : ¬ (c = '\n') := fun hcc => h (hcc ▸ List.mem_cons_self c l)
      have hl : '\n' ∉ l := fun hm => h (List.mem_cons_of_mem c hm)
      have step : splitlinesAux acc ((c :: l) ++ '\n' :: rest) =
          splitlinesAux (c :: acc) (l ++ '\n' :: rest) := by
        simp [splitlinesAux, hc]
      rw [step, ih hl (c :: acc) rest]
      simp

/-- splitlines of a two-line file with newline-free lines. -/
theorem splitlines_pair (a b : String) (ha : '\n' ∉ a.data) (hb : '\n' ∉ b.data) :
    splitlines (a ++ "\n" ++ b ++ "\n") = [a, b] := by
  have hd : (a ++ "\n" ++ b ++ "\n").data = a.data ++ '\n' :: (b.data ++ '\n' :: []) := by
    simp [String.data_append]
  unfold splitlines
  rw [hd, splitlinesAux_line a.data ha, splitlinesAux_line b.data hb]
  simp [splitlinesAux]

/-- takeWhile of not-newline stops exactly at the first newline. -/
theorem takeWhile_until_nl (l rest : List Char) (h : '\n' ∉ l) :
    (l ++ '\n' :: rest).takeWhile (fun c => c ≠ '\n') = l := by
  induction l with
  | nil => simp [List.takeWhile_cons]
  | cons c l ih =>
      have hc : ¬ (c = '\n') := fun hcc => h (hcc ▸ List.mem_cons_self c l)
      have hl : '\n' ∉ l := fun hm => h (List.mem_cons_of_mem c hm)
      simp only [ne_eq, decide_not] at ih
      simp [List.takeWhile_cons, hc, ih hl]

/-- The first line of the version file written by write_local_version is the
version itself, when the version contains no newline. -/
theorem firstLine_of_write (v rest : String) (h : '\n' ∉ v.data) :
    firstLine (v ++ "\n" ++ rest) = v := by
  have hd : (v ++ "\n" ++ rest).data = v.data ++ '\n' :: rest.data := by
    simp [String.data_append]
  unfold firstLine
  rw [hd, takeWhile_until_nl v.data rest.data h]

/-- send_pushover posts one notification when Pushover is enabled, none
otherwise. -/
theorem notifyCount_send_pushover (cfg : CheckerConfig) (t m : String) :
    notifyCount (send_pushover cfg t m) = if cfg.pushover_enabled then 1 else 0 := by
  unfold send_pushover notifyCount
  split <;> simp [isNotifyEv]

/-- send_pushover never produces any event other than a notification. -/
theorem countP_send_pushover_other (cfg : CheckerConfig) (t m : String)
    (p : Event → Bool) (hp : ∀ a b, p (Event.notify a b) = false) :
    (send_pushover cfg t m).countP p = 0 := by
  unfold send_pushover
  split <;> simp [List.countP_cons, hp]

/-- read_local_version only logs; its events are never writes, notifications
or fetches. -/
theorem countP_read_local_version (label : String) (file : Option String)
    (p : Event → Bool) (hp : ∀ ok m, p (Event.logline ok m) = false) :
    ((read_local_version label file).2).countP p = 0 := by
  cases file <;> simp [read_local_version, List.countP_cons, hp]

/-- When read_local_version returns a version, it logged nothing. -/
theorem read_local_version_some_events (label : String) (file : Option String)
    (v : String) (h : (read_local_version label file).1 = some v) :
    (read_local_version label file).2 = [] := by
  cases file with
  | none => simp [read_local_version] at h
  | some contents => simp [read_local_version]

/-- Unfolding of checker_main on a failed fetch. -/
theorem checker_main_fetch_error (cfg : CheckerConfig) (nd nts : String)
    (resp : Except String (Int × String)) (parse : String → Except String String)
    (fs0 : FileState) (e : String) (he : fetch_mame_page resp = Except.error e) :
    checker_main cfg nd nts resp parse fs0 =
      ⟨{ fs0 with lastcheck_file := some (nts ++ "\n" ++ cfg.label ++ "\n") },
       Event.writeLastcheck :: Event.fetchAttempt ::
         Event.logline false (cfg.label ++ " ERROR: failed to fetch page: " ++ e) ::
         (if cfg.notify_on_error then
            send_pushover cfg (cfg.label ++ " Check Error")
              (cfg.label ++ " ERROR: failed to fetch page: " ++ e)
          else []),
       1⟩ := by
  unfold checker_main
  rw [he]
  rfl

/-- Unfolding of checker_main on a failed parse. -/
theorem checker_main_parse_error (cfg : CheckerConfig) (nd nts : String)
    (resp : Except String (Int × String)) (parse : String → Except String String)
    (fs0 : FileState) (html e : String)
    (hh : fetch_mame_page resp = Except.ok html) (hp : parse html = Except.error e) :
    checker_main cfg nd nts resp parse fs0 =
      ⟨{ fs0 with lastcheck_file := some (nts ++ "\n" ++ cfg.label ++ "\n") },
       Event.writeLastcheck :: Event.fetchAttempt ::
         Event.logline false (cfg.label ++ " ERROR: failed to parse version: " ++ e) ::
         (if cfg.notify_on_error then
            send_pushover cfg (cfg.label ++ " Check Error")
              (cfg.label ++ " ERROR: failed to parse version: " ++ e)
          else []),
       1⟩ := by
  unfold checker_main
  rw [hh]
  show (match parse html with
    | Except.error e => _
    | Except.ok new_version => _) = _
  rw [hp]
  rfl

/-- Unfolding of checker_main when the parsed version equals the cached one. -/
theorem checker_main_current (cfg : CheckerConfig) (nd nts : String)
    (resp : Except String (Int × String)) (parse : String → Except String String)
    (fs0 : FileState) (html v : String)
    (hh : fetch_mame_page resp = Except.ok html) (hp : parse html = Except.ok v)
    (hloc : (read_local_version cfg.label fs0.version_file).1 = some v) :
    checker_main cfg nd nts resp parse fs0 =
      ⟨{ fs0 with lastcheck_file := some (nts ++ "\n" ++ cfg.label ++ "\n") },
       [Event.writeLastcheck, Event.fetchAttempt,
        Event.logline true (cfg.label ++ ": local version " ++ v ++ ", page reports " ++ v),
        Event.logline true (cfg.label ++ ": version is current.")],
       0⟩ := by
  unfold checker_main
  rw [hh]
  show (match parse html with
    | Except.error e => _
    | Except.ok new_version => _) = _
  rw [hp]
  have hev := read_local_version_some_events cfg.label fs0.version_file v hloc
  simp only [update_lastcheck, hloc, hev]
  simp

/-- Unfolding of checker_main when the parsed version differs from the cached
one (or the cached one is absent). -/
theorem checker_main_changed (cfg : CheckerConfig) (nd nts : String)
    (resp : Except String (Int × String)) (parse : String → Except String String)
    (fs0 : FileState) (html v : String)
    (hh : fetch_mame_page resp = Except.ok html) (hp : parse html = Except.ok v)
    (hne : (read_local_version cfg.label fs0.version_file).1 ≠ some v) :
    checker_main cfg nd nts resp parse fs0 =
      ⟨{ version_file := some (v ++ "\n" ++ nd ++ "\n"),
         lastcheck_file := some (nts ++ "\n" ++ cfg.label ++ "\n") },
       Event.writeLastcheck :: Event.fetchAttempt ::
         ((read_local_version cfg.label fs0.version_file).2 ++
          (match (read_local_version cfg.label fs0.version_file).1 with
           | none => [Event.logline false
               (cfg.label ++ ": no local version found; treating " ++ v ++ " as new.")]
           | some lv => [Event.logline true
               (cfg.label ++ ": local version " ++ lv ++ ", page reports " ++ v)]) ++
          Event.logline true (cfg.label ++ ": new version detected.") ::
            Event.writeVersion ::
            (if cfg.notify_on_update then
               send_pushover cfg ("New " ++ cfg.label ++ " Version")
                 ("New " ++ cfg.label ++ " version " ++ v ++ " is available.")
             else [])),
       0⟩ := by
  unfold checker_main
  rw [hh]
  show (match parse html with
    | Except.error e => _
    | Except.ok new_version => _) = _
  rw [hp]
  simp only [update_lastcheck, write_local_version]
  simp [hne]

/-- The optional error or update notification contributes no event other than
notifications. -/
theorem countP_optional_notify (b : Bool) (cfg : CheckerConfig) (t m : String)
    (p : Event → Bool) (hp : ∀ a c, p (Event.notify a c) = false) :
    (if b then send_pushover cfg t m else []).countP p = 0 := by
  cases b with
  | false => rfl
  | true => exact countP_send_pushover_other cfg t m p hp

/-- read_local_version produces no notification events. -/
theorem filter_notify_read (label : String) (file : Option String) :
    ((read_local_version label file).2).filter isNotifyEv = [] := by
  cases file <;> simp [read_local_version, isNotifyEv]

/-- Claim C5: on every run, whatever the fetch, parse and comparison do, the
shared lastcheck file is overwritten exactly once and afterwards holds two
lines: the run's timestamp string on line 0 and the checker's label on
line 1. -/
theorem checker_lastcheck_always_overwritten
    (cfg : CheckerConfig) (nd nts : String)
    (resp : Except String (Int × String)) (parse : String → Except String String)
    (fs0 : FileState)
    (hts : '\n' ∉ nts.data) (hlb : '\n' ∉ cfg.label.data) :
    (checker_main cfg nd nts resp parse fs0).fs.lastcheck_file =
      some (nts ++ "\n" ++ cfg.label ++ "\n") ∧
    splitlines (nts ++ "\n" ++ cfg.label ++ "\n") = [nts, cfg.label] ∧
    (checker_main cfg nd nts resp parse fs0).events.countP isWriteLastcheckEv = 1 := by
  refine ⟨?_, splitlines_pair nts cfg.label hts hlb, ?_⟩
  · cases hf : fetch_mame_page resp with
    | error e => rw [checker_main_fetch_error cfg nd nts resp parse fs0 e hf]
    | ok html =>
        cases hp : parse html with
        | error e => rw [checker_main_parse_error cfg nd nts resp parse fs0 html e hf hp]
        | ok v =>
            by_cases hloc : (read_local_version cfg.label fs0.version_file).1 = some v
            · rw [checker_main_current cfg nd nts resp parse fs0 html v hf hp hloc]
            · rw [checker_main_changed cfg nd nts resp parse fs0 html v hf hp hloc]
  · cases hf : fetch_mame_page resp with
    | error e =>
        rw [checker_main_fetch_error cfg nd nts resp parse fs0 e hf]
        simp [List.countP_cons, isWriteLastcheckEv,
          countP_optional_notify cfg.notify_on_error cfg _ _ isWriteLastcheckEv (fun _ _ => rfl)]
    | ok html =>
        cases hp : parse html with
        | error e =>
            rw [checker_main_parse_error cfg nd nts resp parse fs0 html e hf hp]
            simp [List.countP_cons, isWriteLastcheckEv,
              countP_optional_notify cfg.notify_on_error cfg _ _ isWriteLastcheckEv (fun _ _ => rfl)]
        | ok v =>
            by_cases hloc : (read_local_version cfg.label fs0.version_file).1 = some v
            · rw [checker_main_current cfg nd nts resp parse fs0 html v hf hp hloc]
              simp [List.countP_cons, isWriteLastcheckEv]
            · rw [checker_main_changed cfg nd nts resp parse fs0 html v hf hp hloc]
              cases hrv : (read_local_version cfg.label fs0.version_file).1 <;>
                simp [hrv, List.countP_append, List.countP_cons, isWriteLastcheckEv,
                  countP_read_local_version cfg.label fs0.version_file isWriteLastcheckEv (fun _ _ => rfl),
                  countP_optional_notify cfg.notify_on_update cfg _ _ isWriteLastcheckEv (fun _ _ => rfl)]

/-- Witness for claim C5 at a concrete run. -/
theorem checker_lastcheck_always_overwritten_witness :
    (checker_main ⟨"MAME", true, true, true⟩ "12-05-2024" "12-05-2024 10:00:00"
        (Except.error "connection refused") (fun _ => Except.ok "0.283")
        ⟨none, none⟩).fs.lastcheck_file =
      some ("12-05-2024 10:00:00" ++ "\n" ++ "MAME" ++ "\n") ∧
    splitlines ("12-05-2024 10:00:00" ++ "\n" ++ "MAME" ++ "\n") =
      ["12-05-2024 10:00:00", "MAME"] ∧
    (checker_main ⟨"MAME", true, true, true⟩ "12-05-2024" "12-05-2024 10:00:00"
        (Except.error "connection refused") (fun _ => Except.ok "0.283")
        ⟨none, none⟩).events.countP isWriteLastcheckEv = 1 :=
  checker_lastcheck_always_overwritten ⟨"MAME", true, true, true⟩
    "12-05-2024" "12-05-2024 10:00:00" (Except.error "connection refused")
    (fun _ => Except.ok "0.283") ⟨none, none⟩ (by decide) (by decide)

/-- Claim C3: a run whose fetch fails (network error or non-200 status, both
of which make fetch_mame_page raise) never writes the version cache file: it
holds the same contents after the run as before it. -/
theorem checker_fetch_failure_preserves_cache
    (cfg : CheckerConfig) (nd nts : String)
    (resp : Except String (Int × String)) (parse : String → Except String String)
    (fs0 : FileState) (e : String)
    (he : fetch_mame_page resp = Except.error e) :
    (checker_main cfg nd nts resp parse fs0).fs.version_file = fs0.version_file ∧
    (checker_main cfg nd nts resp parse fs0).events.countP isWriteVersionEv = 0 := by
  rw [checker_main_fetch_error cfg nd nts resp parse fs0 e he]
  refine ⟨rfl, ?_⟩
  simp [List.countP_cons, isWriteVersionEv,
    countP_optional_notify cfg.notify_on_error cfg _ _ isWriteVersionEv (fun _ _ => rfl)]

/-- Witness for claim C3 at a concrete non-200 fetch. -/
theorem checker_fetch_failure_preserves_cache_witness :
    (checker_main ⟨"MAME", true, true, true⟩ "12-05-2024" "12-05-2024 10:00:00"
        (Except.ok (404, "not found")) (fun _ => Except.ok "0.283")
        ⟨some "0.282\n12-01-2024\n", none⟩).fs.version_file =
      (⟨some "0.282\n12-01-2024\n", none⟩ : FileState).version_file ∧
    (checker_main ⟨"MAME", true, true, true⟩ "12-05-2024" "12-05-2024 10:00:00"
        (Except.ok (404, "not found")) (fun _ => Except.ok "0.283")
        ⟨some "0.282\n12-01-2024\n", none⟩).events.countP isWriteVersionEv = 0 :=
  checker_fetch_failure_preserves_cache ⟨"MAME", true, true, true⟩
    "12-05-2024" "12-05-2024 10:00:00" (Except.ok (404, "not found"))
    (fun _ => Except.ok "0.283") ⟨some "0.282\n12-01-2024\n", none⟩
    "Unexpected HTTP status 404" rfl

/-- Claim C2: when the fetch and parse succeed and the parsed version equals
the cached one, the version cache file is unchanged, no write of it happens,
no notification fires, and main returns 0. -/
theorem checker_equal_version_no_write
    (cfg : CheckerConfig) (nd nts : String)
    (resp : Except String (Int × String)) (parse : String → Except String String)
    (fs0 : FileState) (html V : String)
    (hh : fetch_mame_page resp = Except.ok html) (hp : parse html = Except.ok V)
    (hloc : (read_local_version cfg.label fs0.version_file).1 = some V) :
    (checker_main cfg nd nts resp parse fs0).fs.version_file = fs0.version_file ∧
    (checker_main cfg nd nts resp parse fs0).events.countP isWriteVersionEv = 0 ∧
    notifyCount (checker_main cfg nd nts resp parse fs0).events = 0 ∧
    (checker_main cfg nd nts resp parse fs0).rc = 0 := by
  rw [checker_main_current cfg nd nts resp parse fs0 html V hh hp hloc]
  refine ⟨rfl, ?_, ?_, rfl⟩
  · simp [List.countP_cons, isWriteVersionEv]
  · simp [notifyCount, List.countP_cons, isNotifyEv]

/-- Witness for claim C2 at a concrete run. -/
theorem checker_equal_version_no_write_witness :
    (checker_main ⟨"MAME", true, true, true⟩ "12-05-2024" "12-05-2024 10:00:00"
        (Except.ok (200, "page")) (fun _ => Except.ok "0.282")
        ⟨some "0.282\n12-01-2024\n", none⟩).fs.version_file =
      (⟨some "0.282\n12-01-2024\n", none⟩ : FileState).version_file ∧
    (checker_main ⟨"MAME", true, true, true⟩ "12-05-2024" "12-05-2024 10:00:00"
        (Except.ok (200, "page")) (fun _ => Except.ok "0.282")
        ⟨some "0.282\n12-01-2024\n", none⟩).events.countP isWriteVersionEv = 0 ∧
    notifyCount (checker_main ⟨"MAME", true, true, true⟩ "12-05-2024" "12-05-2024 10:00:00"
        (Except.ok (200, "page")) (fun _ => Except.ok "0.282")
        ⟨some "0.282\n12-01-2024\n", none⟩).events = 0 ∧
    (checker_main ⟨"MAME", true, true, true⟩ "12-05-2024" "12-05-2024 10:00:00"
        (Except.ok (200, "page")) (fun _ => Except.ok "0.282")
        ⟨some "0.282\n12-01-2024\n", none⟩).rc = 0 :=
  checker_equal_version_no_write ⟨"MAME", true, true, true⟩
    "12-05-2024" "12-05-2024 10:00:00" (Except.ok (200, "page"))
    (fun _ => Except.ok "0.282") ⟨some "0.282\n12-01-2024\n", none⟩
    "page" "0.282" rfl rfl (by decide)

/-- Claim C4: a fetch failure or a parse failure terminates the run with
return value 1; the error is logged exactly once, a notification fires
exactly when error notifications and Pushover are both enabled, and the fetch
was attempted exactly once (never retried within the run). -/
theorem checker_failure_terminal_single_fetch
    (cfg : CheckerConfig) (nd nts : String)
    (resp : Except String (Int × String)) (parse : String → Except String String)
    (fs0 : FileState)
    (hfail : (∃ e, fetch_mame_page resp = Except.error e) ∨
             (∃ html e, fetch_mame_page resp = Except.ok html ∧ parse html = Except.error e)) :
    (checker_main cfg nd nts resp parse fs0).rc = 1 ∧
    (checker_main cfg nd nts resp parse fs0).events.countP isFetchEv = 1 ∧
    (checker_main cfg nd nts resp parse fs0).events.countP isErrorLogEv = 1 ∧
    notifyCount (checker_main cfg nd nts resp parse fs0).events =
      (if cfg.notify_on_error && cfg.pushover_enabled then 1 else 0) := by
  rcases hfail with ⟨e, he⟩ | ⟨html, e, hh, hp⟩
  · rw [checker_main_fetch_error cfg nd nts resp parse fs0 e he]
    refine ⟨rfl, ?_, ?_, ?_⟩
    · simp [List.countP_cons, isFetchEv,
        countP_optional_notify cfg.notify_on_error cfg _ _ isFetchEv (fun _ _ => rfl)]
    · simp [List.countP_cons, isErrorLogEv,
        countP_optional_notify cfg.notify_on_error cfg _ _ isErrorLogEv (fun _ _ => rfl)]
    · cases hne : cfg.notify_on_error <;> cases hpe : cfg.pushover_enabled <;>
        simp [notifyCount, send_pushover, hne, hpe, List.countP_cons, isNotifyEv]
  · rw [checker_main_parse_error cfg nd nts resp parse fs0 html e hh hp]
    refine ⟨rfl, ?_, ?_, ?_⟩
    · simp [List.countP_cons, isFetchEv,
        countP_optional_notify cfg.notify_on_error cfg _ _ isFetchEv (fun _ _ => rfl)]
    · simp [List.countP_cons, isErrorLogEv,
        countP_optional_notify cfg.notify_on_error cfg _ _ isErrorLogEv (fun _ _ => rfl)]
    · cases hne : cfg.notify_on_error <;> cases hpe : cfg.pushover_enabled <;>
        simp [notifyCount, send_pushover, hne, hpe, List.countP_cons, isNotifyEv]

/-- Witness for claim C4 at a concrete parse failure. -/
theorem checker_failure_terminal_single_fetch_witness :
    (checker_main ⟨"MAME", true, true, true⟩ "12-05-2024" "12-05-2024 10:00:00"
        (Except.ok (200, "page")) (fun _ => Except.error "no version banner")
        ⟨none, none⟩).rc = 1 ∧
    (checker_main ⟨"MAME", true, true, true⟩ "12-05-2024" "12-05-2024 10:00:00"
        (Except.ok (200, "page")) (fun _ => Except.error "no version banner")
        ⟨none, none⟩).events.countP isFetchEv = 1 ∧
    (checker_main ⟨"MAME", true, true, true⟩ "12-05-2024" "12-05-2024 10:00:00"
        (Except.ok (200, "page")) (fun _ => Except.error "no version banner")
        ⟨none, none⟩).events.countP isErrorLogEv = 1 ∧
    notifyCount (checker_main ⟨"MAME", true, true, true⟩ "12-05-2024" "12-05-2024 10:00:00"
        (Except.ok (200, "page")) (fun _ => Except.error "no version banner")
        ⟨none, none⟩).events =
      (if (⟨"MAME", true, true, true⟩ : CheckerConfig).notify_on_error &&
          (⟨"MAME", true, true, true⟩ : CheckerConfig).pushover_enabled then 1 else 0) :=
  checker_failure_terminal_single_fetch ⟨"MAME", true, true, true⟩
    "12-05-2024" "12-05-2024 10:00:00" (Except.ok (200, "page"))
    (fun _ => Except.error "no version banner") ⟨none, none⟩
    (Or.inr ⟨"page", "no version banner", rfl, rfl⟩)

/-- Claim C1 counterexample: with the default Pushover state (disabled, as
when no pushover credentials are configured), a run that satisfies all of the
claim's hypotheses — fetch and parse succeed, the cache holds V, the page
reports W with W different from V — does overwrite the cache with W but fires
zero notifications, not exactly one. -/
theorem checker_single_notification_cex :
    fetch_mame_page (Except.ok (200, "page")) = Except.ok "page" ∧
    (fun _ : String => Except.ok (ε := String) "0.283") "page" = Except.ok "0.283" ∧
    (read_local_version "MAME" (some "0.282\n12-01-2024\n")).1 = some "0.282" ∧
    ("0.283" : String) ≠ "0.282" ∧
    (checker_main ⟨"MAME", true, true, false⟩ "12-05-2024" "12-05-2024 10:00:00"
        (Except.ok (200, "page")) (fun _ => Except.ok "0.283")
        ⟨some "0.282\n12-01-2024\n", none⟩).fs.version_file =
      some "0.283\n12-05-2024\n" ∧
    notifyCount (checker_main ⟨"MAME", true, true, false⟩ "12-05-2024" "12-05-2024 10:00:00"
        (Except.ok (200, "page")) (fun _ => Except.ok "0.283")
        ⟨some "0.282\n12-01-2024\n", none⟩).events = 0 :=
  ⟨rfl, rfl, by decide, by decide, by decide, by decide⟩

/-- Claim C1 (amended): when the fetch and parse succeed, the cache holds V,
and the page reports W with W different from V, the version cache file is
overwritten so that its first line is W, for every setting of the
notification flags; exactly one update notification fires when
notify_on_update is set and Pushover is enabled, and none fires when either
is disabled. -/
theorem checker_new_version_writes_and_notifies
    (cfg : CheckerConfig) (nd nts : String)
    (resp : Except String (Int × String)) (parse : String → Except String String)
    (fs0 : FileState) (html W V : String)
    (hh : fetch_mame_page resp = Except.ok html) (hp : parse html = Except.ok W)
    (hloc : (read_local_version cfg.label fs0.version_file).1 = some V)
    (hne : V ≠ W)
    (hW : '\n' ∉ W.data) :
    (checker_main cfg nd nts resp parse fs0).fs.version_file =
      some (W ++ "\n" ++ nd ++ "\n") ∧
    firstLine (W ++ "\n" ++ nd ++ "\n") = W ∧
    notifyCount (checker_main cfg nd nts resp parse fs0).events =
      (if cfg.notify_on_update && cfg.pushover_enabled then 1 else 0) := by
  have hne2 : (read_local_version cfg.label fs0.version_file).1 ≠ some W := by
    rw [hloc]
    simpa using hne
  rw [checker_main_changed cfg nd nts resp parse fs0 html W hh hp hne2]
  refine ⟨rfl, ?_, ?_⟩
  · have h2 := firstLine_of_write W (nd ++ "\n") hW
    rwa [← String.append_assoc] at h2
  · cases hnu : cfg.notify_on_update <;> cases hpe : cfg.pushover_enabled <;>
      simp [notifyCount, List.countP_append, List.countP_cons, isNotifyEv, hloc,
        hnu, hpe, send_pushover,
        countP_read_local_version cfg.label fs0.version_file isNotifyEv (fun _ _ => rfl)]

/-- Witness for the amended claim C1 at a concrete run with both notification
switches enabled. -/
theorem checker_new_version_writes_and_notifies_witness :
    (checker_main ⟨"MAME", true, true, true⟩ "12-05-2024" "12-05-2024 10:00:00"
        (Except.ok (200, "page")) (fun _ => Except.ok "0.283")
        ⟨some "0.282\n12-01-2024\n", none⟩).fs.version_file =
      some ("0.283" ++ "\n" ++ "12-05-2024" ++ "\n") ∧
    firstLine ("0.283" ++ "\n" ++ "12-05-2024" ++ "\n") = "0.283" ∧
    notifyCount (checker_main ⟨"MAME", true, true, true⟩ "12-05-2024" "12-05-2024 10:00:00"
        (Except.ok (200, "page")) (fun _ => Except.ok "0.283")
        ⟨some "0.282\n12-01-2024\n", none⟩).events =
      (if (⟨"MAME", true, true, true⟩ : CheckerConfig).notify_on_update &&
          (⟨"MAME", true, true, true⟩ : CheckerConfig).pushover_enabled then 1 else 0) :=
  checker_new_version_writes_and_notifies ⟨"MAME", true, true, true⟩
    "12-05-2024" "12-05-2024 10:00:00" (Except.ok (200, "page"))
    (fun _ => Except.ok "0.283") ⟨some "0.282\n12-01-2024\n", none⟩
    "page" "0.283" "0.282" rfl rfl (by decide) (by decide) (by decide)

/-- Claim C8: when the fetch and parse succeed but read_local_version returns
none (version file missing, unreadable, or with an empty first line), the run
treats the fetched version W as new: the version cache file is written with W,
and the resulting cache contents, notifications and return code are exactly
those of a run whose cached version differs from W. -/
theorem checker_missing_local_treated_as_new
    (cfg : CheckerConfig) (nd nts : String)
    (resp : Except String (Int × String)) (parse : String → Except String String)
    (fs0 fs1 : FileState) (html W V : String)
    (hh : fetch_mame_page resp = Except.ok html) (hp : parse html = Except.ok W)
    (hnone : (read_local_version cfg.label fs0.version_file).1 = none)
    (hsome : (read_local_version cfg.label fs1.version_file).1 = some V)
    (hne : V ≠ W) :
    (checker_main cfg nd nts resp parse fs0).fs.version_file =
      some (W ++ "\n" ++ nd ++ "\n") ∧
    (checker_main cfg nd nts resp parse fs0).events.countP isWriteVersionEv = 1 ∧
    (checker_main cfg nd nts resp parse fs0).fs.version_file =
      (checker_main cfg nd nts resp parse fs1).fs.version_file ∧
    (checker_main cfg nd nts resp parse fs0).events.filter isNotifyEv =
      (checker_main cfg nd nts resp parse fs1).events.filter isNotifyEv ∧
    (checker_main cfg nd nts resp parse fs0).rc = 0 ∧
    (checker_main cfg nd nts resp parse fs0).rc =
      (checker_main cfg nd nts resp parse fs1).rc := by
  have hne0 : (read_local_version cfg.label fs0.version_file).1 ≠ some W := by
    rw [hnone]
    simp
  have hne1 : (read_local_version cfg.label fs1.version_file).1 ≠ some W := by
    rw [hsome]
    simpa using hne
  rw [checker_main_changed cfg nd nts resp parse fs0 html W hh hp hne0,
    checker_main_changed cfg nd nts resp parse fs1 html W hh hp hne1]
  refine ⟨rfl, ?_, rfl, ?_, rfl, rfl⟩
  · simp [hnone, List.countP_append, List.countP_cons, isWriteVersionEv,
      countP_read_local_version cfg.label fs0.version_file isWriteVersionEv (fun _ _ => rfl),
      countP_optional_notify cfg.notify_on_update cfg _ _ isWriteVersionEv (fun _ _ => rfl)]
  · simp [hnone, hsome, List.filter_append, List.filter_cons, isNotifyEv,
      filter_notify_read cfg.label fs0.version_file,
      filter_notify_read cfg.label fs1.version_file]

/-- Witness for claim C8 at a concrete run with a missing version file. -/
theorem checker_missing_local_treated_as_new_witness :
    (checker_main ⟨"MAME", true, true, true⟩ "12-05-2024" "12-05-2024 10:00:00"
        (Except.ok (200, "page")) (fun _ => Except.ok "0.283")
        ⟨none, none⟩).fs.version_file =
      some ("0.283" ++ "\n" ++ "12-05-2024" ++ "\n") ∧
    (checker_main ⟨"MAME", true, true, true⟩ "12-05-2024" "12-05-2024 10:00:00"
        (Except.ok (200, "page")) (fun _ => Except.ok "0.283")
        ⟨none, none⟩).events.countP isWriteVersionEv = 1 ∧
    (checker_main ⟨"MAME", true, true, true⟩ "12-05-2024" "12-05-2024 10:00:00"
        (Except.ok (200, "page")) (fun _ => Except.ok "0.283")
        ⟨none, none⟩).fs.version_file =
      (checker_main ⟨"MAME", true, true, true⟩ "12-05-2024" "12-05-2024 10:00:00"
        (Except.ok (200, "page")) (fun _ => Except.ok "0.283")
        ⟨some "0.282\n12-01-2024\n", none⟩).fs.version_file ∧
    (checker_main ⟨"MAME", true, true, true⟩ "12-05-2024" "12-05-2024 10:00:00"
        (Except.ok (200, "page")) (fun _ => Except.ok "0.283")
        ⟨none, none⟩).events.filter isNotifyEv =
      (checker_main ⟨"MAME", true, true, true⟩ "12-05-2024" "12-05-2024 10:00:00"
        (Except.ok (200, "page")) (fun _ => Except.ok "0.283")
        ⟨some "0.282\n12-01-2024\n", none⟩).events.filter isNotifyEv ∧
    (checker_main ⟨"MAME", true, true, true⟩ "12-05-2024" "12-05-2024 10:00:00"
        (Except.ok (200, "page")) (fun _ => Except.ok "0.283")
        ⟨none, none⟩).rc = 0 ∧
    (checker_main ⟨"MAME", true, true, true⟩ "12-05-2024" "12-05-2024 10:00:00"
        (Except.ok (200, "page")) (fun _ => Except.ok "0.283")
        ⟨none, none⟩).rc =
      (checker_main ⟨"MAME", true, true, true⟩ "12-05-2024" "12-05-2024 10:00:00"
        (Except.ok (200, "page")) (fun _ => Except.ok "0.283")
        ⟨some "0.282\n12-01-2024\n", none⟩).rc :=
  checker_missing_local_treated_as_new ⟨"MAME", true, true, true⟩
    "12-05-2024" "12-05-2024 10:00:00" (Except.ok (200, "page"))
    (fun _ => Except.ok "0.283") ⟨none, none⟩ ⟨some "0.282\n12-01-2024\n", none⟩
    "page" "0.283" "0.282" rfl rfl (by decide) (by decide) (by decide)

/-- Claim C6: with a positive interval, an exception raised by the checker in
iteration i is caught by run_checker_loop; the loop still performs every
iteration scheduled before the stop event (the trace has full length), and in
particular iteration i+1 runs right after the failing one. -/
theorem run_checker_loop_error_isolated
    (interval : Int) (runs : Nat → Except String Int) (iters i : Nat) (e : String)
    (hpos : 0 < interval) (hi : i + 1 < iters) (herr : runs i = Except.error e) :
    (run_checker_loop interval runs iters).length = iters ∧
    (run_checker_loop interval runs iters)[i]? = some (LoopEvent.caught i e) ∧
    (run_checker_loop interval runs iters)[i + 1]? =
      some (loop_body (i + 1) (runs (i + 1))) := by
  unfold run_checker_loop
  rw [if_neg (by omega)]
  refine ⟨by simp, ?_, ?_⟩
  · rw [List.getElem?_map, List.getElem?_range (by omega)]
    simp [loop_body, herr]
  · rw [List.getElem?_map, List.getElem?_range hi]
    simp

/-- Witness for claim C6: the run at iteration 0 raises, iteration 1 still
happens. -/
theorem run_checker_loop_error_isolated_witness :
    (run_checker_loop 21600 (fun i => if i = 0 then Except.error "boom" else Except.ok 0) 2).length = 2 ∧
    (run_checker_loop 21600 (fun i => if i = 0 then Except.error "boom" else Except.ok 0) 2)[0]? =
      some (LoopEvent.caught 0 "boom") ∧
    (run_checker_loop 21600 (fun i => if i = 0 then Except.error "boom" else Except.ok 0) 2)[0 + 1]? =
      some (loop_body (0 + 1) ((fun i => if i = 0 then Except.error "boom" else Except.ok 0) (0 + 1))) :=
  run_checker_loop_error_isolated 21600
    (fun i => if i = 0 then Except.error "boom" else Except.ok 0) 2 0 "boom"
    (by decide) (by decide) rfl

/-- Claim C7: with the configured number of tail lines at least one (the
shipped default is 40), load_log_text returns exactly the last log_lines lines
of the log joined by newlines (all lines when there are fewer), and the empty
string when the file is missing or unreadable or holds no lines. -/
theorem load_log_text_last_lines
    (log_lines : Int) (contents : String) (h : 1 ≤ log_lines) :
    load_log_text log_lines none = "" ∧
    load_log_text log_lines (some "") = "" ∧
    load_log_text log_lines (some contents) =
      joinLines ((splitlines contents).drop
        ((splitlines contents).length - log_lines.toNat)) := by
  refine ⟨rfl, rfl, ?_⟩
  simp only [load_log_text]
  by_cases hl : (splitlines contents).isEmpty
  · rw [if_pos hl, List.isEmpty_iff.mp hl]
    simp [joinLines]
  · rw [if_neg hl]
    unfold pySliceFrom
    rw [if_pos (show -log_lines < 0 by omega)]
    congr 2
    omega

/-- Witness for claim C7 at the default configuration and a concrete log. -/
theorem load_log_text_last_lines_witness :
    load_log_text LOG_LINES_DEFAULT none = "" ∧
    load_log_text LOG_LINES_DEFAULT (some "") = "" ∧
    load_log_text LOG_LINES_DEFAULT (some "l1\nl2\nl3\n") =
      joinLines ((splitlines "l1\nl2\nl3\n").drop
        ((splitlines "l1\nl2\nl3\n").length - LOG_LINES_DEFAULT.toNat)) :=
  load_log_text_last_lines LOG_LINES_DEFAULT "l1\nl2\nl3\n" (by decide)

/-- A concrete strptime oracle for the counterexample: it parses the single
date string 01-02-2025 in the date-only format to midnight of that day
(1735776000 on the seconds timeline) and rejects everything else, as the real
strptime would. -/
def strpJan2 : String → String → Option Int :=
  fun s fmt => if s = "01-02-2025" && fmt = DATE_FMT then some 1735776000 else none

/-- Claim C10 counterexample: with the date-only format selected (withsecs
false), an input that parses and whose elapsed interval is under one second is
answered with Today, not with 0 Seconds, so the claim's under-one-second
clause fails as stated. -/
theorem elapsed_time_zero_seconds_cex :
    strpJan2 "01-02-2025" DATE_FMT = some 1735776000 ∧
    (1735776000 : Int) - 1735776000 < 1 ∧
    elapsed_time strpJan2 1735776000 "01-02-2025" false (some "ago") = "Today ago" ∧
    ("Today ago" : String) ≠ "0 Seconds ago" :=
  ⟨rfl, by norm_num, by decide, by decide⟩

/-- Claim C10 (amended): elapsed_time always returns a string (the embedding
is a total function); when the input does not parse in the selected format it
returns the input unchanged; when the seconds format is selected and the
truncated elapsed seconds are zero it returns 0 Seconds with the append
suffix; and when the date-only format is selected the same situation is
answered with Today and the append suffix instead. -/
theorem elapsed_time_total_and_zero
    (strptime : String → String → Option Int) (now t : Int) (s : String)
    (withsecs : Bool) (append : Option String) :
    (strptime s (if withsecs then SECS_FMT else DATE_FMT) = none →
      elapsed_time strptime now s withsecs append = s) ∧
    (strptime s SECS_FMT = some t → now = t →
      elapsed_time strptime now s true append =
        (match append with
         | some a => "0 Seconds " ++ a
         | none => "0 Seconds")) ∧
    (strptime s DATE_FMT = some t → now = t →
      elapsed_time strptime now s false append =
        (match append with
         | some a => "Today " ++ a
         | none => "Today")) := by
  refine ⟨?_, ?_, ?_⟩
  · intro hnone
    simp [elapsed_time, hnone]
  · intro hsome hnow
    subst hnow
    have hbp : buildParts 0 intervalsL [] = [] := rfl
    simp [elapsed_time, hsome, hbp]
    cases append <;> rfl
  · intro hsome hnow
    subst hnow
    simp [elapsed_time, hsome]

/-- A strptime oracle that accepts the seconds format at time 42. -/
def strpSecs42 : String → String → Option Int :=
  fun _ fmt => if fmt = SECS_FMT then some 42 else none

/-- A strptime oracle that accepts the date-only format at time 42. -/
def strpDate42 : String → String → Option Int :=
  fun _ fmt => if fmt = DATE_FMT then some 42 else none

/-- Witness for the amended claim C10 at concrete inputs. -/
theorem elapsed_time_total_and_zero_witness :
    elapsed_time strpJan2 5 "garbage" true (some "ago") = "garbage" ∧
    elapsed_time strpSecs42 42 "x" true (some "ago") = "0 Seconds ago" ∧
    elapsed_time strpDate42 42 "x" false (some "ago") = "Today ago" :=
  ⟨(elapsed_time_total_and_zero strpJan2 5 0 "garbage" true (some "ago")).1 rfl,
   (elapsed_time_total_and_zero strpSecs42 42 42 "x" true (some "ago")).2.1 rfl rfl,
   (elapsed_time_total_and_zero strpDate42 42 42 "x" false (some "ago")).2.2 rfl rfl⟩

/-- The candidate list is empty exactly when no heading matches the version
pattern. -/
theorem lbCandidates_nil_iff (hs : List String) :
    lbCandidates hs = [] ↔ ∀ t ∈ hs, matchVer t = none := by
  induction hs with
  | nil => simp [lbCandidates]
  | cons u rest ih =>
      cases hm : matchVer u with
      | none => simp [lbCandidates, List.filterMap_cons, hm, ih, lbCandidates]
      | some v => simp [lbCandidates, List.filterMap_cons, hm]

/-- When some heading is a non-beta version heading, the candidate search for
a non-beta entry returns the version of the first such heading, marked
false. -/
theorem lbFind_nonbeta (hs : List String) (t : String)
    (hfind : hs.find? (fun u => (matchVer u).isSome && !(markedBeta u)) = some t) :
    ∃ v, matchVer t = some v ∧
      (lbCandidates hs).find? (fun c => !c.2) = some (v, false) := by
  induction hs with
  | nil => simp at hfind
  | cons u rest ih =>
      rw [List.find?_cons] at hfind
      cases hp : ((matchVer u).isSome && !(markedBeta u)) with
      | true =>
          simp only [hp] at hfind
          have ht : u = t := by simpa using hfind
          subst ht
          have hsplit : (matchVer u).isSome = true ∧ markedBeta u = false := by
            simpa using hp
          have h1 : (matchVer u).isSome := hsplit.1
          have h2 : markedBeta u = false := hsplit.2
          obtain ⟨v, hv⟩ := Option.isSome_iff_exists.mp h1
          refine ⟨v, hv, ?_⟩
          simp [lbCandidates, List.filterMap_cons, hv, List.find?_cons, h2]
      | false =>
          simp only [hp] at hfind
          obtain ⟨v, hv, hf2⟩ := ih hfind
          refine ⟨v, hv, ?_⟩
          cases hm : matchVer u with
          | none => simpa [lbCandidates, List.filterMap_cons, hm] using hf2
          | some w =>
              have hb : markedBeta u = true := by
                rw [hm] at hp
                simpa using hp
              simpa [lbCandidates, List.filterMap_cons, hm, List.find?_cons, hb] using hf2

/-- When every version heading is marked beta, the candidate search for a
non-beta entry fails. -/
theorem lbFind_all_beta_none (hs : List String)
    (hall : ∀ u ∈ hs, (matchVer u).isSome → markedBeta u = true) :
    (lbCandidates hs).find? (fun c => !c.2) = none := by
  induction hs with
  | nil => simp [lbCandidates]
  | cons u rest ih =>
      have hrest : ∀ x ∈ rest, (matchVer x).isSome → markedBeta x = true :=
        fun x hx => hall x (List.mem_cons_of_mem u hx)
      cases hm : matchVer u with
      | none => simpa [lbCandidates, List.filterMap_cons, hm] using ih hrest
      | some w =>
          have hb : markedBeta u = true :=
            hall u (List.mem_cons_self u rest) (by simp [hm])
          simpa [lbCandidates, List.filterMap_cons, hm, List.find?_cons, hb] using ih hrest

/-- When every version heading is marked beta, the first candidate is the
version of the first version heading, marked true. -/
theorem lbHead_all_beta (hs : List String) (t : String)
    (hall : ∀ u ∈ hs, (matchVer u).isSome → markedBeta u = true)
    (hfind : hs.find? (fun u => (matchVer u).isSome) = some t) :
    ∃ v, matchVer t = some v ∧ (lbCandidates hs).head? = some (v, true) := by
  induction hs with
  | nil => simp at hfind
  | cons u rest ih =>
      rw [List.find?_cons] at hfind
      cases hp : (matchVer u).isSome with
      | true =>
          simp only [hp] at hfind
          have ht : u = t := by simpa using hfind
          subst ht
          obtain ⟨v, hv⟩ := Option.isSome_iff_exists.mp hp
          have hb : markedBeta u = true := hall u (List.mem_cons_self u rest) hp
          exact ⟨v, hv, by simp [lbCandidates, List.filterMap_cons, hv, hb]⟩
      | false =>
          simp only [hp] at hfind
          have hm : matchVer u = none := by
            cases hmm : matchVer u with
            | none => rfl
            | some w => rw [hmm] at hp; simp at hp
          have hrest : ∀ x ∈ rest, (matchVer x).isSome → markedBeta x = true :=
            fun x hx => hall x (List.mem_cons_of_mem u hx)
          obtain ⟨v, hv, hh⟩ := ih hrest hfind
          exact ⟨v, hv, by simpa [lbCandidates, List.filterMap_cons, hm] using hh⟩

/-- Claim C9: parse_launchbox_versions raises exactly when no h4 heading
matches the version pattern; otherwise it returns the version of the first
heading that matches and is not marked beta, paired with false, and when all
matching headings are marked beta it returns the version of the first
matching heading paired with true. -/
theorem lb_parse_selects_first_stable (hs : List String) :
    ((∃ e, parse_launchbox_versions hs = Except.error e) ↔ ∀ t ∈ hs, matchVer t = none) ∧
    (∀ t v, hs.find? (fun u => (matchVer u).isSome && !(markedBeta u)) = some t →
      matchVer t = some v →
      parse_launchbox_versions hs = Except.ok (v, false)) ∧
    ((∀ u ∈ hs, (matchVer u).isSome → markedBeta u = true) →
      ∀ t v, hs.find? (fun u => (matchVer u).isSome) = some t →
        matchVer t = some v →
        parse_launchbox_versions hs = Except.ok (v, true)) := by
  refine ⟨⟨?_, ?_⟩, ?_, ?_⟩
  · rintro ⟨e, he⟩
    rw [← lbCandidates_nil_iff]
    cases hc : lbCandidates hs with
    | nil => rfl
    | cons a as =>
        unfold parse_launchbox_versions at he
        rw [hc] at he
        cases hfo : (a :: as).find? (fun c => !c.2) <;> simp [hfo] at he
  · intro hall
    refine ⟨"Could not find any Version X.Y headings on LaunchBox changelog page.", ?_⟩
    unfold parse_launchbox_versions
    rw [(lbCandidates_nil_iff hs).mpr hall]
  · intro t v hfind hv
    obtain ⟨v2, hv2, hcf⟩ := lbFind_nonbeta hs t hfind
    rw [hv] at hv2
    obtain rfl : v = v2 := by simpa using hv2
    unfold parse_launchbox_versions
    cases hc : lbCandidates hs with
    | nil => rw [hc] at hcf; simp at hcf
    | cons a as =>
        rw [hc] at hcf
        simp [hcf]
  · intro hall t v hfind hv
    have hnone := lbFind_all_beta_none hs hall
    obtain ⟨v2, hv2, hh⟩ := lbHead_all_beta hs t hall hfind
    rw [hv] at hv2
    obtain rfl : v = v2 := by simpa using hv2
    unfold parse_launchbox_versions
    cases hc : lbCandidates hs with
    | nil => rw [hc] at hh; simp at hh
    | cons a as =>
        rw [hc] at hh hnone
        have ha : a = (v, true) := by simpa using hh
        subst ha
        simp [hnone]

/-- Witness for claim C9 at concrete heading lists: a changelog with a beta
heading above a stable one, an all-beta changelog, and one with no version
headings. -/
theorem lb_parse_selects_first_stable_witness :
    parse_launchbox_versions ["Changelog", "Version 13.2 Beta?", "Version 13.1", "junk"] =
      Except.ok ("13.1", false) ∧
    parse_launchbox_versions ["Version 2.0 beta", "Version 2.1?"] = Except.ok ("2.0", true) ∧
    (∃ e, parse_launchbox_versions ["no versions here"] = Except.error e) := by
  refine ⟨?_, ?_, ?_⟩
  · exact (lb_parse_selects_first_stable
      ["Changelog", "Version 13.2 Beta?", "Version 13.1", "junk"]).2.1
      "Version 13.1" "13.1" (by decide) (by decide)
  · exact (lb_parse_selects_first_stable ["Version 2.0 beta", "Version 2.1?"]).2.2
      (by decide) "Version 2.0 beta" "2.0" (by decide) (by decide)
  · exact (lb_parse_selects_first_stable ["no versions here"]).1.mpr (by decide)
